import Mathlib

/-!
Verification of the Geospatial Tile Mosaic & Terrain Synthesis Engine
(frontend/app.js of the Contour 3D terrain explorer).

The JavaScript source is shallowly embedded below.  JavaScript numbers are
modelled as exact rationals (`ℚ`) for the raster pipeline and as reals (`ℝ`)
for the Web-Mercator projection, which uses transcendental functions.
Canvas rasters are modelled as functions from pixel coordinates to RGBA
byte quadruples; the browser's `drawImage` crop-and-scale resampling
primitive is an external dependency and is taken as a parameter.
-/

/-- RGBA pixel, one natural number per channel byte. -/
structure RGBA where
  r : ℕ
  g : ℕ
  b : ℕ
  a : ℕ
  deriving DecidableEq, Repr

/-- A raster image: the dimensions of its canvas plus its pixel contents
(model of an `Image` / canvas bitmap in app.js). -/
structure Img where
  w : ℕ
  h : ℕ
  pix : ℤ → ℤ → RGBA

/-- Fresh canvas contents: every pixel transparent black, the default for a
newly created canvas in the browser. -/
def blankRGBA : RGBA := ⟨0, 0, 0, 0⟩

/-- A blank canvas of the given size (`document.createElement("canvas")`). -/
def blankImg (w h : ℕ) : Img := ⟨w, h, fun _ _ => blankRGBA⟩

/-- Channel selector matching the RGBA byte layout of canvas `ImageData`. -/
def chan : ℕ → RGBA → ℕ
  | 0, c => c.r
  | 1, c => c.g
  | 2, c => c.b
  | _, c => c.a

/-- Flat `ImageData.data` view of an image: byte `j` is channel `j % 4` of
pixel number `j / 4` in row-major order (`ctx.getImageData`). -/
def imgData (im : Img) (j : ℕ) : ℕ :=
  chan (j % 4) (im.pix (((j / 4) % im.w : ℕ)) (((j / 4) / im.w : ℕ)))

/-- Geographic bounding box in degrees (`state.bounds` in app.js). -/
structure BBox where
  north : ℚ
  south : ℚ
  east : ℚ
  west : ℚ

/-- One awaited tile-fetch outcome as it enters the compositing loop of
`fetchDEM`: `none` for a failed fetch (the per-tile `.catch(() => null)`),
otherwise the image together with its pixel offset in the mosaic. -/
abbrev TileEntry : Type := Option (Img × ℤ × ℤ)

/-- Embedding of `ctx.drawImage(img, dx, dy)`: paints `im` over the canvas
`c` with its top-left corner at `(ox, oy)`; pixels outside the painted
rectangle keep their previous value. -/
def drawImageAt (c : Img) (im : Img) (ox oy : ℤ) : Img :=
  { c with pix := fun px py =>
      if ox ≤ px ∧ px < ox + im.w ∧ oy ≤ py ∧ py < oy + im.h then
        im.pix (px - ox) (py - oy)
      else c.pix px py }

/-- One iteration of the compositing loop `for (const tile of tiles) { if
(tile?.img) { ctx.drawImage(...); loaded++; } }` in `fetchDEM`. -/
def mosaicStep : Img × ℕ → TileEntry → Img × ℕ
  | (c, k), some (im, ox, oy) => (drawImageAt c im ox oy, k + 1)
  | (c, k), none => (c, k)

/-- Integer range `[a, b]` as a list, in increasing order (the `for` loops
`for (let y = yMin; y <= yMax; y++)`). -/
def rangeInt (a b : ℤ) : List ℤ :=
  (List.range (b + 1 - a).toNat).map fun (i : ℕ) => a + (i : ℤ)

/-- The awaited tile results of `fetchDEM` in promise order: `y` outer loop,
`x` inner loop; each successful fetch carries the blit offset
`((x - xMin) * 256, (y - yMin) * 256)`. -/
def demTileEntries (xMin xMax yMin yMax : ℤ) (net : ℤ → ℤ → Option Img) :
    List TileEntry :=
  (rangeInt yMin yMax).flatMap fun y =>
    (rangeInt xMin xMax).map fun x =>
      (net x y).map fun im => (im, (x - xMin) * 256, (y - yMin) * 256)

/-- Mosaic compositing of `fetchDEM` (and `loadSatelliteTexture`): fold the
awaited tile list over a fresh canvas sized to the tile range, counting the
successfully loaded tiles. -/
def mosaicBuild (xMin xMax yMin yMax : ℤ) (net : ℤ → ℤ → Option Img) :
    Img × ℕ :=
  (demTileEntries xMin xMax yMin yMax net).foldl mosaicStep
    (blankImg ((xMax - xMin + 1) * 256).toNat ((yMax - yMin + 1) * 256).toNat, 0)

/-- The mosaic phase of `fetchDEM` including its only failure: `if (loaded
=== 0) throw new Error("No tiles loaded")`. -/
def fetchDEMMosaic (xMin xMax yMin yMax : ℤ) (net : ℤ → ℤ → Option Img) :
    Except String (Img × ℕ) :=
  let r := mosaicBuild xMin xMax yMin yMax net
  if r.2 = 0 then Except.error "No tiles loaded" else Except.ok r

/-- Terrarium elevation decode of `fetchDEM`:
`elevation[i] = r * 256 + g + b / 256 - 32768`. -/
def decodeElevation (r g b : ℚ) : ℚ :=
  r * 256 + g + b / 256 - 32768

/-- Decoded elevation of mosaic pixel number `i`, reading the three channel
bytes `imageData.data[i*4 .. i*4+2]` exactly as the decode loop does. -/
def demDecodeAt (im : Img) (i : ℕ) : ℚ :=
  decodeElevation (imgData im (i * 4)) (imgData im (i * 4 + 1))
    (imgData im (i * 4 + 2))

/-- The decoded elevation raster of `fetchDEM` as the flat array
`elevation`, one rational per mosaic pixel. -/
def elevList (im : Img) : List ℚ :=
  (List.range (im.w * im.h)).map fun i => demDecodeAt im i

/-- One iteration of the min/max scan `if (e > 0) { eMin = Math.min(eMin,
e); eMax = Math.max(eMax, e); }`.  The accumulator components model the
seeds `Infinity` and `-Infinity` as `none`. -/
def statsStep : Option ℚ × Option ℚ → ℚ → Option ℚ × Option ℚ :=
  fun acc e =>
    if 0 < e then
      (some (match acc.1 with | none => e | some m => min m e),
       some (match acc.2 with | none => e | some m => max m e))
    else acc

/-- The `(eMin, eMax)` pair computed by the valid-sample min/max scan of
`fetchDEM`; `none` stands for a component left at its infinite seed. -/
def elevStats (l : List ℚ) : Option ℚ × Option ℚ :=
  l.foldl statsStep (none, none)

/-- Per-pixel normalization of the heightmap loop of `fetchDEM`:
`let val = 0; if (elevation[i] > 0 && eMax > eMin) val = ((elevation[i] -
eMin) / (eMax - eMin)) * 255;`.  A comparison against an infinite seed
(`none`) is false, as in JavaScript. -/
def hmValue (e : ℚ) : Option ℚ × Option ℚ → ℚ
  | (some mn, some mx) => if 0 < e ∧ mn < mx then (e - mn) / (mx - mn) * 255 else 0
  | _ => 0

/-- Storage of a rational into a `Uint8ClampedArray` slot: clamp to
`[0, 255]` and round, ties to even. -/
def clampByte (q : ℚ) : ℕ :=
  if q ≤ 0 then 0
  else if 255 ≤ q then 255
  else
    (if q - ⌊q⌋ < 1 / 2 then ⌊q⌋
     else if 1 / 2 < q - ⌊q⌋ then ⌊q⌋ + 1
     else if ⌊q⌋ % 2 = 0 then ⌊q⌋ else ⌊q⌋ + 1).toNat

/-- The grayscale heightmap canvas `hmCanvas` built by `fetchDEM`: pixel
`(px, py)` holds the normalized value of elevation sample `py * width + px`
in all three color channels, with alpha 255. -/
def hmImg (im : Img) : Img :=
  { w := im.w, h := im.h, pix := fun px py =>
      let v := clampByte (hmValue (demDecodeAt im (py * im.w + px).toNat)
        (elevStats (elevList im)))
      ⟨v, v, v, 255⟩ }

/-- Vertex displacement of `applyHeightmapToGeometry`: vertex `i` of a
`width × width` vertex grid samples the heightmap byte at the floor-indexed
(nearest-neighbor) texel of its `(u, v)` and is displaced by
`(byte / 255) * scale`. -/
def vertexHeight (imgW imgH : ℕ) (data : ℕ → ℕ) (width : ℕ) (scale : ℚ)
    (i : ℕ) : ℚ :=
  let x : ℕ := i % width
  let y : ℕ := i / width
  let u : ℚ := (x : ℚ) / ((width : ℚ) - 1)
  let v : ℚ := (y : ℚ) / ((width : ℚ) - 1)
  let px : ℤ := ⌊u * ((imgW : ℚ) - 1)⌋
  let py : ℤ := ⌊v * ((imgH : ℚ) - 1)⌋
  ((data ((py * imgW + px).toNat * 4) : ℚ) / 255) * scale

/-- Synthesized terrain mesh: the vertical displacement of each vertex of
the 257 × 257 grid of `new THREE.PlaneGeometry(100, 100, 256, 256)`, plus
whether the material is textured by a color raster. -/
structure Terrain where
  heights : ℕ → ℚ
  textured : Bool

/-- Mesh content built by `createTerrain`: heights from
`applyHeightmapToGeometry` when a heightmap texture is present (flat
otherwise); textured exactly when a color texture is present. -/
def mkTerrain (hm colorTex : Option Img) (exag : ℚ) : Terrain :=
  { heights := fun i =>
      match hm with
      | some im => vertexHeight im.w im.h (imgData im) 257 exag i
      | none => 0
    textured := colorTex.isSome }

/-- Status-bar message written by `setStatus(text, type)`. -/
structure StatusMsg where
  text : String
  kind : String
  deriving DecidableEq

/-- Rendering of `q.toFixed(0)` for a finite value. -/
def fix0 (q : ℚ) : String := toString (round q)

/-- Rendering of `eMin.toFixed(0)`, whose value is `Infinity` when no valid
elevation sample was seen. -/
def fix0Min : Option ℚ → String
  | none => "Infinity"
  | some q => fix0 q

/-- Rendering of `eMax.toFixed(0)`, whose value is `-Infinity` when no
valid elevation sample was seen. -/
def fix0Max : Option ℚ → String
  | none => "-Infinity"
  | some q => fix0 q

/-- The fields of the global `state` object of app.js that the terrain
engine reads or writes, together with the DOM sinks it writes (status bar,
coordinate readout, loading overlay, water altitude and elevation-profile
labels). -/
structure AppState where
  bounds : Option BBox
  heightmapTexture : Option Img
  colorTexture : Option Img
  satelliteTexture : Option Img
  terrain : Option Terrain
  elevationMin : ℚ
  elevationMax : ℚ
  currentLocation : Option (String × ℚ × ℚ)
  satelliteMode : Bool
  waterLevel : ℚ
  domStatus : StatusMsg
  domCoordAlt : String
  domLoading : Bool
  domWaterAlt : Option ℤ
  domProfileMin : Option ℤ
  domProfileMax : Option ℤ

/-- The initial `state` object literal of app.js (lines 9-25): in
particular `elevationMin: 0, elevationMax: 1000`. -/
def initState : AppState :=
  { bounds := none
    heightmapTexture := none
    colorTexture := none
    satelliteTexture := none
    terrain := none
    elevationMin := 0
    elevationMax := 1000
    currentLocation := none
    satelliteMode := false
    waterLevel := 0
    domStatus := ⟨"", ""⟩
    domCoordAlt := ""
    domLoading := false
    domWaterAlt := none
    domProfileMin := none
    domProfileMax := none }

/-- State effect of `createTerrain()`: rebuild `state.terrain` wholesale
from the current heightmap and color textures and the exaggeration slider
value. -/
def createTerrain (exag : ℚ) (s : AppState) : AppState :=
  { s with terrain := some (mkTerrain s.heightmapTexture s.colorTexture exag) }

/-- The real altitude displayed by `updateWaterPlane()`:
`Math.round(state.elevationMin + (state.waterLevel / 100) *
(state.elevationMax - state.elevationMin))`. -/
def waterAltitude (s : AppState) : ℤ :=
  round (s.elevationMin + s.waterLevel / 100 * (s.elevationMax - s.elevationMin))

/-- State/DOM effect of `updateWaterPlane()` relevant to the engine: the
flood altitude readout. -/
def updateWaterPlane (s : AppState) : AppState :=
  { s with domWaterAlt := some (waterAltitude s) }

/-- The `realMin` statistic of `drawElevationProfile`:
`minElev * 50 + state.elevationMin`. -/
def profileRealMin (s : AppState) (minElev : ℚ) : ℚ :=
  minElev * 50 + s.elevationMin

/-- The `realMax` statistic of `drawElevationProfile`:
`maxElev * 50 + state.elevationMin`. -/
def profileRealMax (s : AppState) (maxElev : ℚ) : ℚ :=
  maxElev * 50 + s.elevationMin

/-- DOM effect of `drawElevationProfile`: the Min/Max labels, rounded.  The
`minElev` / `maxElev` arguments model the terrain raycast samples taken
along the measured line. -/
def drawElevationProfile (s : AppState) (minElev maxElev : ℚ) : AppState :=
  { s with domProfileMin := some (round (profileRealMin s minElev))
           domProfileMax := some (round (profileRealMax s maxElev)) }

/-- The bounding box built by `loadLocationTerrain`: a square of
half-side `size = 0.15` degrees around the location. -/
def locationBounds (lat lon : ℚ) : BBox :=
  { north := lat + 0.15, south := lat - 0.15, east := lon + 0.15, west := lon - 0.15 }

/-- Web-Mercator forward projection `latLonToTile(lat, lon, z)` of app.js:
`x = floor((lon + 180) / 360 * 2^z)`;
`y = floor((1 - log(tan(latRad) + 1 / cos(latRad)) / PI) / 2 * 2^z)`. -/
noncomputable def latLonToTile (lat lon : ℝ) (z : ℕ) : ℤ × ℤ :=
  (⌊(lon + 180) / 360 * 2 ^ z⌋,
   ⌊(1 - Real.log (Real.tan (lat * Real.pi / 180) +
       1 / Real.cos (lat * Real.pi / 180)) / Real.pi) / 2 * 2 ^ z⌋)

/-- The latitude returned by `tileToLatLon(x, y, z)`:
`n = PI - 2 * PI * y / 2^z;
lat = (180 / PI) * atan(0.5 * (exp(n) - exp(-n)))`. -/
noncomputable def invLat (y : ℝ) (z : ℕ) : ℝ :=
  180 / Real.pi * Real.arctan (0.5 *
    (Real.exp (Real.pi - 2 * Real.pi * y / 2 ^ z) -
     Real.exp (-(Real.pi - 2 * Real.pi * y / 2 ^ z))))

/-- Inverse projection `tileToLatLon(x, y, z)` of app.js, returning the
`(lat, lon)` of the tile's north-west corner. -/
noncomputable def tileToLatLon (x y : ℝ) (z : ℕ) : ℝ × ℝ :=
  (invLat y z, x / 2 ^ z * 360 - 180)

/-- The inclusive tile rectangle computed by `fetchDEM` /
`loadSatelliteTexture` from the bounding box at zoom `z`: project the two
extreme corners, then take min/max of each axis independently. -/
structure TileRange where
  xMin : ℤ
  xMax : ℤ
  yMin : ℤ
  yMax : ℤ

/-- Tile rectangle of a bounding box at zoom `z` (from `latLonToTile(north,
west, z)` and `latLonToTile(south, east, z)`). -/
noncomputable def tileRangeAt (b : BBox) (z : ℕ) : TileRange :=
  let minTile := latLonToTile b.north b.west z
  let maxTile := latLonToTile b.south b.east z
  { xMin := min minTile.1 maxTile.1
    xMax := max minTile.1 maxTile.1
    yMin := min minTile.2 maxTile.2
    yMax := max minTile.2 maxTile.2 }

/-- Crop rectangle `(cropX, cropY, cropW, cropH)` computed by `fetchDEM`
(zoom 11) and `loadSatelliteTexture` (zoom 13) against the footprint
`tileToLatLon(xMin, yMin)` / `tileToLatLon(xMax + 1, yMax + 1)` of a
`w × h`-pixel mosaic. -/
noncomputable def cropRect (b : BBox) (g : TileRange) (z : ℕ) (w h : ℕ) :
    ℝ × ℝ × ℝ × ℝ :=
  let nw := tileToLatLon (g.xMin : ℝ) (g.yMin : ℝ) z
  let se := tileToLatLon ((g.xMax : ℝ) + 1) ((g.yMax : ℝ) + 1) z
  (((b.west : ℝ) - nw.2) / (se.2 - nw.2) * w,
   (nw.1 - (b.north : ℝ)) / (nw.1 - se.1) * h,
   ((b.east : ℝ) - (b.west : ℝ)) / (se.2 - nw.2) * w,
   ((b.north : ℝ) - (b.south : ℝ)) / (nw.1 - se.1) * h)

/-- Modelled from the spec: the RasterResampler crop-rectangle formulas of
section 4.4, written against the spec's own parameter names
(`srcWestLon`, `srcEastLon`, `srcNorthLat`, `srcSouthLat`, source size,
target box edges). -/
noncomputable def specCropRect (srcWestLon srcEastLon srcNorthLat srcSouthLat
    srcWidth srcHeight north south east west : ℝ) : ℝ × ℝ × ℝ × ℝ :=
  ((west - srcWestLon) / (srcEastLon - srcWestLon) * srcWidth,
   (srcNorthLat - north) / (srcNorthLat - srcSouthLat) * srcHeight,
   (east - west) / (srcEastLon - srcWestLon) * srcWidth,
   (north - south) / (srcNorthLat - srcSouthLat) * srcHeight)

/-- The browser's `drawImage(src, cropX, cropY, cropW, cropH, 0, 0, dw,
dh)` crop-and-scale primitive, an external dependency of the engine: given
the source image, the crop rectangle and the destination size, it yields
the destination pixel contents. -/
def ResampleFn : Type :=
  Img → (ℝ × ℝ × ℝ × ℝ) → ℕ → ℕ → ℤ → ℤ → RGBA

/-- The 512 × 512 `finalCanvas` of `fetchDEM`: the grayscale heightmap
canvas cropped to the bounding box and rescaled. -/
noncomputable def demHeightmapImg (resample : ResampleFn) (b : BBox)
    (g : TileRange) (m : Img) : Img :=
  { w := 512, h := 512
    pix := resample (hmImg m) (cropRect b g 11 m.w m.h) 512 512 }

/-- The 1024 × 1024 `finalCanvas` of `loadSatelliteTexture`: the satellite
mosaic cropped to the bounding box and rescaled. -/
noncomputable def satTextureImg (resample : ResampleFn) (b : BBox)
    (g : TileRange) (m : Img) : Img :=
  { w := 1024, h := 1024
    pix := resample m (cropRect b g 13 m.w m.h) 1024 1024 }

/-- State and DOM effect of `async function fetchDEM()`.  The function's
JavaScript return value is `undefined` on every path, modelled by the
`Unit` component; `net x y` models the awaited outcome of
`loadImage(url(11, x, y)).catch(() => null)`. -/
noncomputable def fetchDEM (resample : ResampleFn) (exag : ℚ)
    (net : ℤ → ℤ → Option Img) (s : AppState) : AppState × Unit :=
  match s.bounds with
  | none => ({ s with domStatus := ⟨"Set bounds first", "error"⟩ }, ())
  | some b =>
    let s1 := { s with domLoading := true
                       domStatus := ⟨"Fetching DEM...", "loading"⟩ }
    let g := tileRangeAt b 11
    match fetchDEMMosaic g.xMin g.xMax g.yMin g.yMax net with
    | Except.error msg =>
        ({ s1 with domLoading := false
                   domStatus := ⟨"DEM Error: " ++ msg, "error"⟩ }, ())
    | Except.ok (m, _) =>
        let st := elevStats (elevList m)
        let s2 := createTerrain exag
          { s1 with heightmapTexture := some (demHeightmapImg resample b g m)
                    colorTexture := none }
        ({ s2 with
            domLoading := false
            domStatus := ⟨"Loaded: " ++ fix0Min st.1 ++ "m - " ++ fix0Max st.2
              ++ "m elevation", "success"⟩
            domCoordAlt := "Alt: " ++ fix0Min st.1 ++ "-" ++ fix0Max st.2 ++ "m" }, ())

/-- State effect of `loadSatelliteTexture()`: early return when no bounds;
otherwise composite the zoom-13 satellite mosaic (no zero-tile check),
crop/rescale it to 1024 × 1024, store it as both satellite and color
texture and rebuild the terrain. -/
noncomputable def loadSatelliteTexture (resample : ResampleFn) (exag : ℚ)
    (net : ℤ → ℤ → Option Img) (s : AppState) : AppState :=
  match s.bounds with
  | none => s
  | some b =>
    let g := tileRangeAt b 13
    let m := (mosaicBuild g.xMin g.xMax g.yMin g.yMax net).1
    let tex := satTextureImg resample b g m
    createTerrain exag
      { s with satelliteTexture := some tex, colorTexture := some tex }

/-- State effect of `loadLocationTerrain(name, lat, lon)`: record the
location, set the 0.3-degree bounding box around it, run `fetchDEM`, then
auto-load satellite imagery and enable satellite mode. -/
noncomputable def loadLocationTerrain (resample : ResampleFn) (exag : ℚ)
    (net netSat : ℤ → ℤ → Option Img) (name : String) (lat lon : ℚ)
    (s : AppState) : AppState :=
  let s1 := { s with currentLocation := some (name, lat, lon)
                     bounds := some (locationBounds lat lon) }
  let s2 := (fetchDEM resample exag net s1).1
  let s3 := loadSatelliteTexture resample exag netSat s2
  { s3 with satelliteMode := true }

/-- One engine operation of app.js acting on the global `state`. -/
inductive Step : AppState → AppState → Prop
  | fetchDEMStep (resample : ResampleFn) (exag : ℚ)
      (net : ℤ → ℤ → Option Img) (s : AppState) :
      Step s (fetchDEM resample exag net s).1
  | satelliteStep (resample : ResampleFn) (exag : ℚ)
      (net : ℤ → ℤ → Option Img) (s : AppState) :
      Step s (loadSatelliteTexture resample exag net s)
  | locationStep (resample : ResampleFn) (exag : ℚ)
      (net netSat : ℤ → ℤ → Option Img) (name : String) (lat lon : ℚ)
      (s : AppState) :
      Step s (loadLocationTerrain resample exag net netSat name lat lon s)
  | terrainStep (exag : ℚ) (s : AppState) : Step s (createTerrain exag s)
  | waterLevelStep (wl : ℚ) (s : AppState) :
      Step s (updateWaterPlane { s with waterLevel := wl })
  | profileStep (minElev maxElev : ℚ) (s : AppState) :
      Step s (drawElevationProfile s minElev maxElev)

/-- States reachable from the initial `state` object by engine operations. -/
inductive Reachable : AppState → Prop
  | init : Reachable initState
  | step {s t : AppState} : Reachable s → Step s t → Reachable t

/-- The flat `ImageData` byte index sampled by `applyHeightmapToGeometry`
for vertex `i`: the red channel of the floor-indexed texel of `(u, v)`. -/
def sampleIdx (imgW imgH : ℕ) (width : ℕ) (i : ℕ) : ℕ :=
  let x : ℕ := i % width
  let y : ℕ := i / width
  let u : ℚ := (x : ℚ) / ((width : ℚ) - 1)
  let v : ℚ := (y : ℚ) / ((width : ℚ) - 1)
  let px : ℤ := ⌊u * ((imgW : ℚ) - 1)⌋
  let py : ℤ := ⌊v * ((imgH : ℚ) - 1)⌋
  (py * imgW + px).toNat * 4

/-- Concrete 256 × 256 tile used as a test fixture. -/
def tile256 : Img := ⟨256, 256, fun _ _ => ⟨100, 50, 25, 255⟩⟩

/-- Network in which every tile fetch succeeds with `tile256`. -/
def netAll : ℤ → ℤ → Option Img := fun _ _ => some tile256

/-- Network in which every tile fetch fails. -/
def netNone : ℤ → ℤ → Option Img := fun _ _ => none

/-- Trivial concrete instance of the browser resampling primitive. -/
def resample0 : ResampleFn := fun _ _ _ _ _ _ => blankRGBA

/-- Concrete application state with a bounding box installed. -/
def exState : AppState := { initState with bounds := some (locationBounds 28 87) }

/-- C1: for every mosaic pixel with channel bytes (R, G, B), each in
[0, 255], the decoded elevation equals R*256 + G + B/256 - 32768 exactly
(and hence lies in [-32768, 32767 + 255/256]); in particular
decode(0,0,0) = -32768, decode(128,0,0) = 0 and
decode(255,255,255) = 32767 + 255/256. -/
theorem demDecode_affine (im : Img) (i : ℕ)
    (hR : (im.pix (i % im.w : ℕ) (i / im.w : ℕ)).r ≤ 255)
    (hG : (im.pix (i % im.w : ℕ) (i / im.w : ℕ)).g ≤ 255)
    (hB : (im.pix (i % im.w : ℕ) (i / im.w : ℕ)).b ≤ 255) :
    demDecodeAt im i =
      ((im.pix (i % im.w : ℕ) (i / im.w : ℕ)).r : ℚ) * 256 +
      ((im.pix (i % im.w : ℕ) (i / im.w : ℕ)).g : ℚ) +
      ((im.pix (i % im.w : ℕ) (i / im.w : ℕ)).b : ℚ) / 256 - 32768 ∧
    -32768 ≤ demDecodeAt im i ∧ demDecodeAt im i ≤ 32767 + 255 / 256 ∧
    decodeElevation 0 0 0 = -32768 ∧
    decodeElevation 128 0 0 = 0 ∧
    decodeElevation 255 255 255 = 32767 + 255 / 256 := by
  have h0 : (i * 4) % 4 = 0 := by omega
  have h0d : (i * 4) / 4 = i := by omega
  have h1 : (i * 4 + 1) % 4 = 1 := by omega
  have h1d : (i * 4 + 1) / 4 = i := by omega
  have h2 : (i * 4 + 2) % 4 = 2 := by omega
  have h2d : (i * 4 + 2) / 4 = i := by omega
  have heq : demDecodeAt im i =
      ((im.pix (i % im.w : ℕ) (i / im.w : ℕ)).r : ℚ) * 256 +
      ((im.pix (i % im.w : ℕ) (i / im.w : ℕ)).g : ℚ) +
      ((im.pix (i % im.w : ℕ) (i / im.w : ℕ)).b : ℚ) / 256 - 32768 := by
    simp [demDecodeAt, imgData, h0, h0d, h1, h1d, h2, h2d, chan, decodeElevation]
  refine ⟨heq, ?_, ?_, by norm_num [decodeElevation], by norm_num [decodeElevation],
    by norm_num [decodeElevation]⟩
  · rw [heq]
    have hr0 : (0:ℚ) ≤ ((im.pix (i % im.w : ℕ) (i / im.w : ℕ)).r : ℚ) := Nat.cast_nonneg _
    have hg0 : (0:ℚ) ≤ ((im.pix (i % im.w : ℕ) (i / im.w : ℕ)).g : ℚ) := Nat.cast_nonneg _
    have hb0 : (0:ℚ) ≤ ((im.pix (i % im.w : ℕ) (i / im.w : ℕ)).b : ℚ) := Nat.cast_nonneg _
    have hb0d : (0:ℚ) ≤ ((im.pix (i % im.w : ℕ) (i / im.w : ℕ)).b : ℚ) / 256 := by positivity
    linarith
  · rw [heq]
    have hr : ((im.pix (i % im.w : ℕ) (i / im.w : ℕ)).r : ℚ) ≤ 255 := by
      exact_mod_cast hR
    have hg : ((im.pix (i % im.w : ℕ) (i / im.w : ℕ)).g : ℚ) ≤ 255 := by
      exact_mod_cast hG
    have hb : ((im.pix (i % im.w : ℕ) (i / im.w : ℕ)).b : ℚ) / 256 ≤ 255 / 256 := by
      have : ((im.pix (i % im.w : ℕ) (i / im.w : ℕ)).b : ℚ) ≤ 255 := by exact_mod_cast hB
      linarith
    linarith

/-- Witness for C1 at a concrete image and pixel. -/
theorem demDecode_affine_witness :
    (tile256.pix (0 % tile256.w : ℕ) (0 / tile256.w : ℕ)).r ≤ 255 ∧
    demDecodeAt tile256 0 =
      ((tile256.pix (0 % tile256.w : ℕ) (0 / tile256.w : ℕ)).r : ℚ) * 256 +
      ((tile256.pix (0 % tile256.w : ℕ) (0 / tile256.w : ℕ)).g : ℚ) +
      ((tile256.pix (0 % tile256.w : ℕ) (0 / tile256.w : ℕ)).b : ℚ) / 256 - 32768 :=
  ⟨by decide, (demDecode_affine tile256 0 (by decide) (by decide) (by decide)).1⟩

/-- C4: the crop rectangle computed by the source equals the spec's four
linear-interpolation formulas evaluated against the footprint
`tileToLatLon(xMin, yMin)` (north-west) / `tileToLatLon(xMax+1, yMax+1)`
(south-east), and the cropped sub-rectangle is drawn into a fixed 512 × 512
destination on the heightmap path and a fixed 1024 × 1024 destination on
the satellite path. -/
theorem cropRect_refines_spec (b : BBox) (g : TileRange) (z : ℕ) (w h : ℕ)
    (resample : ResampleFn) (m : Img) :
    cropRect b g z w h =
      specCropRect (tileToLatLon ((g.xMin : ℤ) : ℝ) ((g.yMin : ℤ) : ℝ) z).2
        (tileToLatLon ((g.xMax + 1 : ℤ) : ℝ) ((g.yMax + 1 : ℤ) : ℝ) z).2
        (tileToLatLon ((g.xMin : ℤ) : ℝ) ((g.yMin : ℤ) : ℝ) z).1
        (tileToLatLon ((g.xMax + 1 : ℤ) : ℝ) ((g.yMax + 1 : ℤ) : ℝ) z).1
        w h b.north b.south b.east b.west ∧
    (demHeightmapImg resample b g m).w = 512 ∧
    (demHeightmapImg resample b g m).h = 512 ∧
    (demHeightmapImg resample b g m).pix =
      resample (hmImg m) (cropRect b g 11 m.w m.h) 512 512 ∧
    (satTextureImg resample b g m).w = 1024 ∧
    (satTextureImg resample b g m).h = 1024 ∧
    (satTextureImg resample b g m).pix =
      resample m (cropRect b g 13 m.w m.h) 1024 1024 := by
  refine ⟨?_, rfl, rfl, rfl, rfl, rfl, rfl⟩
  simp only [cropRect, specCropRect, tileToLatLon]
  push_cast
  rfl

/-- C6: mesh synthesis displaces each vertex by (sampled heightmap byte /
255) * exaggeration at the nearest-neighbor (floor-indexed) texel of its
(u, v); exaggeration 0 gives height 0 regardless of the data, every height
lies in [0, exaggeration], and heights scale proportionally with the
exaggeration factor. -/
theorem vertexHeight_spec (imgW imgH : ℕ) (data : ℕ → ℕ) (width : ℕ)
    (exag : ℚ) (i : ℕ) (im : Img) (colorTex : Option Img)
    (hdata : ∀ j, data j ≤ 255) (hexag : 0 ≤ exag) :
    vertexHeight imgW imgH data width exag i =
      ((data (sampleIdx imgW imgH width i) : ℚ) / 255) * exag ∧
    vertexHeight imgW imgH data width 0 i = 0 ∧
    0 ≤ vertexHeight imgW imgH data width exag i ∧
    vertexHeight imgW imgH data width exag i ≤ exag ∧
    vertexHeight imgW imgH data width exag i =
      exag * vertexHeight imgW imgH data width 1 i ∧
    (mkTerrain (some im) colorTex exag).heights i =
      vertexHeight im.w im.h (imgData im) 257 exag i ∧
    (mkTerrain none colorTex exag).heights i = 0 := by
  have heq : vertexHeight imgW imgH data width exag i =
      ((data (sampleIdx imgW imgH width i) : ℚ) / 255) * exag := rfl
  have hbyte : (0:ℚ) ≤ (data (sampleIdx imgW imgH width i) : ℚ) / 255 := by positivity
  have hbyte1 : (data (sampleIdx imgW imgH width i) : ℚ) / 255 ≤ 1 := by
    have h255 : (data (sampleIdx imgW imgH width i) : ℚ) ≤ 255 := by
      exact_mod_cast hdata _
    linarith
  refine ⟨heq, ?_, ?_, ?_, ?_, rfl, rfl⟩
  · show ((data (sampleIdx imgW imgH width i) : ℚ) / 255) * 0 = 0
    ring
  · rw [heq]; positivity
  · rw [heq]
    calc ((data (sampleIdx imgW imgH width i) : ℚ) / 255) * exag
        ≤ 1 * exag := by
          exact mul_le_mul_of_nonneg_right hbyte1 hexag
      _ = exag := one_mul exag
  · rw [heq]
    show _ = exag * (((data (sampleIdx imgW imgH width i) : ℚ) / 255) * 1)
    ring

/-- Witness for C6 at concrete data. -/
theorem vertexHeight_spec_witness :
    (∀ j : ℕ, imgData tile256 j ≤ 255) ∧ (0:ℚ) ≤ 2 ∧
    vertexHeight 256 256 (imgData tile256) 257 2 0 =
      ((imgData tile256 (sampleIdx 256 256 257 0) : ℚ) / 255) * 2 := by
  have hdata : ∀ j : ℕ, imgData tile256 j ≤ 255 := by
    intro j
    have : imgData tile256 j = chan (j % 4) ⟨100, 50, 25, 255⟩ := rfl
    rw [this]
    have h4 : j % 4 < 4 := Nat.mod_lt j (by norm_num)
    interval_cases h : j % 4 <;> simp [chan]
  exact ⟨hdata, by norm_num,
    (vertexHeight_spec 256 256 (imgData tile256) 257 2 0 tile256 none hdata
      (by norm_num)).1⟩

theorem fetchDEM_preserves_elev (resample : ResampleFn) (exag : ℚ)
    (net : ℤ → ℤ → Option Img) (s : AppState) :
    (fetchDEM resample exag net s).1.elevationMin = s.elevationMin ∧
    (fetchDEM resample exag net s).1.elevationMax = s.elevationMax := by
  unfold fetchDEM
  cases hb : s.bounds with
  | none => exact ⟨rfl, rfl⟩
  | some b =>
    simp only
    cases hm : fetchDEMMosaic (tileRangeAt b 11).xMin (tileRangeAt b 11).xMax
        (tileRangeAt b 11).yMin (tileRangeAt b 11).yMax net with
    | error msg => exact ⟨rfl, rfl⟩
    | ok r => exact ⟨rfl, rfl⟩

theorem loadSatellite_preserves_elev (resample : ResampleFn) (exag : ℚ)
    (net : ℤ → ℤ → Option Img) (s : AppState) :
    (loadSatelliteTexture resample exag net s).elevationMin = s.elevationMin ∧
    (loadSatelliteTexture resample exag net s).elevationMax = s.elevationMax := by
  unfold loadSatelliteTexture
  cases hb : s.bounds with
  | none => exact ⟨rfl, rfl⟩
  | some b => exact ⟨rfl, rfl⟩

theorem loadLocation_preserves_elev (resample : ResampleFn) (exag : ℚ)
    (net netSat : ℤ → ℤ → Option Img) (name : String) (lat lon : ℚ)
    (s : AppState) :
    (loadLocationTerrain resample exag net netSat name lat lon s).elevationMin =
      s.elevationMin ∧
    (loadLocationTerrain resample exag net netSat name lat lon s).elevationMax =
      s.elevationMax := by
  unfold loadLocationTerrain
  simp only
  constructor
  · rw [show ∀ t : AppState, ({ t with satelliteMode := true } : AppState).elevationMin
        = t.elevationMin from fun _ => rfl]
    rw [(loadSatellite_preserves_elev _ _ _ _).1, (fetchDEM_preserves_elev _ _ _ _).1]
  · rw [show ∀ t : AppState, ({ t with satelliteMode := true } : AppState).elevationMax
        = t.elevationMax from fun _ => rfl]
    rw [(loadSatellite_preserves_elev _ _ _ _).2, (fetchDEM_preserves_elev _ _ _ _).2]

theorem step_preserves_elev {a b : AppState} (h : Step a b) :
    b.elevationMin = a.elevationMin ∧ b.elevationMax = a.elevationMax := by
  cases h with
  | fetchDEMStep resample exag net s0 => exact fetchDEM_preserves_elev _ _ _ _
  | satelliteStep resample exag net s0 => exact loadSatellite_preserves_elev _ _ _ _
  | locationStep resample exag net netSat name lat lon s0 =>
    exact loadLocation_preserves_elev _ _ _ _ _ _ _ _
  | terrainStep exag s0 => exact ⟨rfl, rfl⟩
  | waterLevelStep wl s0 => exact ⟨rfl, rfl⟩
  | profileStep minElev maxElev s0 => exact ⟨rfl, rfl⟩

/-- C9: no operation of the engine ever writes `state.elevationMin` or
`state.elevationMax` after initialization; every reachable state keeps
their initial values 0 and 1000, so the flood-simulation altitude readout
and the elevation-profile Min/Max labels are computed from these constants
(altitude = round(waterLevel * 10); profile labels = sample * 50 + 0)
rather than from the most recently loaded terrain. -/
theorem elevation_stats_never_written (s : AppState) (h : Reachable s) :
    s.elevationMin = 0 ∧ s.elevationMax = 1000 ∧
    waterAltitude s = round (s.waterLevel * 10) ∧
    (∀ m : ℚ, profileRealMin s m = m * 50) ∧
    (∀ m : ℚ, profileRealMax s m = m * 50) := by
  have key : s.elevationMin = 0 ∧ s.elevationMax = 1000 := by
    induction h with
    | init => exact ⟨rfl, rfl⟩
    | step hr hs ih =>
      rw [(step_preserves_elev hs).1, (step_preserves_elev hs).2]
      exact ih
  refine ⟨key.1, key.2, ?_, ?_, ?_⟩
  · unfold waterAltitude
    rw [key.1, key.2]
    norm_num
    congr 1
    ring
  · intro m; unfold profileRealMin; rw [key.1]; ring
  · intro m; unfold profileRealMax; rw [key.1]; ring

/-- Witness for C9 at the initial state. -/
theorem elevation_stats_never_written_witness :
    Reachable initState ∧ initState.elevationMin = 0 ∧
      initState.elevationMax = 1000 :=
  ⟨Reachable.init, (elevation_stats_never_written initState Reachable.init).1,
    (elevation_stats_never_written initState Reachable.init).2.1⟩

theorem mem_rangeInt {lo hi2 a : ℤ} : a ∈ rangeInt lo hi2 ↔ lo ≤ a ∧ a ≤ hi2 := by
  unfold rangeInt
  rw [List.mem_map]
  constructor
  · rintro ⟨i, hilt, rfl⟩
    rw [List.mem_range] at hilt
    omega
  · rintro ⟨h1, h2⟩
    refine ⟨(a - lo).toNat, ?_, ?_⟩
    · rw [List.mem_range]
      omega
    · omega

theorem mem_demTileEntries {xMin xMax yMin yMax : ℤ} {net : ℤ → ℤ → Option Img}
    {t : TileEntry} :
    t ∈ demTileEntries xMin xMax yMin yMax net ↔
      ∃ x y, xMin ≤ x ∧ x ≤ xMax ∧ yMin ≤ y ∧ y ≤ yMax ∧
        t = (net x y).map fun im => (im, (x - xMin) * 256, (y - yMin) * 256) := by
  simp only [demTileEntries, List.mem_flatMap, List.mem_map, mem_rangeInt]
  constructor
  · rintro ⟨y, ⟨hy1, hy2⟩, x, ⟨hx1, hx2⟩, rfl⟩
    exact ⟨x, y, hx1, hx2, hy1, hy2, rfl⟩
  · rintro ⟨x, y, hx1, hx2, hy1, hy2, rfl⟩
    exact ⟨y, ⟨hy1, hy2⟩, x, ⟨hx1, hx2⟩, rfl⟩

theorem mosaic_count (ts : List TileEntry) : ∀ (c : Img) (k : ℕ),
    (ts.foldl mosaicStep (c, k)).2 = k + ts.countP (fun t => t.isSome) := by
  induction ts with
  | nil =>
    intro c k
    rw [List.foldl_nil, List.countP_nil]
    omega
  | cons t ts ih =>
    intro c k
    match t with
    | none =>
      rw [List.foldl_cons, List.countP_cons]
      show (ts.foldl mosaicStep (c, k)).2 = _
      rw [ih]
      simp [Option.isSome]
    | some (im, ox, oy) =>
      rw [List.foldl_cons, List.countP_cons]
      show (ts.foldl mosaicStep (drawImageAt c im ox oy, k + 1)).2 = _
      rw [ih]
      simp [Option.isSome]
      omega

theorem mosaicBuild_count (xMin xMax yMin yMax : ℤ) (net : ℤ → ℤ → Option Img) :
    (mosaicBuild xMin xMax yMin yMax net).2 =
      (demTileEntries xMin xMax yMin yMax net).countP (fun t => t.isSome) := by
  unfold mosaicBuild
  rw [mosaic_count]
  omega

theorem mosaicBuild_count_zero {xMin xMax yMin yMax : ℤ}
    {net : ℤ → ℤ → Option Img} :
    (mosaicBuild xMin xMax yMin yMax net).2 = 0 ↔
      ∀ x y, xMin ≤ x → x ≤ xMax → yMin ≤ y → y ≤ yMax → net x y = none := by
  rw [mosaicBuild_count, List.countP_eq_zero]
  constructor
  · intro h x y hx1 hx2 hy1 hy2
    have hmem : ((net x y).map fun im => (im, (x - xMin) * 256, (y - yMin) * 256) :
        TileEntry) ∈ demTileEntries xMin xMax yMin yMax net :=
      mem_demTileEntries.mpr ⟨x, y, hx1, hx2, hy1, hy2, rfl⟩
    have := h _ hmem
    cases hnet : net x y with
    | none => rfl
    | some im => rw [hnet] at this; simp at this
  · intro h t ht
    rcases mem_demTileEntries.mp ht with ⟨x, y, hx1, hx2, hy1, hy2, rfl⟩
    rw [h x y hx1 hx2 hy1 hy2]
    simp

theorem fetchDEM_noBounds (resample : ResampleFn) (exag : ℚ)
    (net : ℤ → ℤ → Option Img) (s : AppState) (h : s.bounds = none) :
    (fetchDEM resample exag net s).1 =
      { s with domStatus := ⟨"Set bounds first", "error"⟩ } := by
  unfold fetchDEM
  rw [h]

theorem fetchDEM_allFail (resample : ResampleFn) (exag : ℚ)
    (net : ℤ → ℤ → Option Img) (s : AppState) (b : BBox)
    (hb : s.bounds = some b) (h : ∀ x y, net x y = none) :
    (fetchDEM resample exag net s).1 =
      { s with domLoading := false
               domStatus := ⟨"DEM Error: No tiles loaded", "error"⟩ } := by
  have hz : (mosaicBuild (tileRangeAt b 11).xMin (tileRangeAt b 11).xMax
      (tileRangeAt b 11).yMin (tileRangeAt b 11).yMax net).2 = 0 :=
    mosaicBuild_count_zero.mpr (fun x y _ _ _ _ => h x y)
  have herr : fetchDEMMosaic (tileRangeAt b 11).xMin (tileRangeAt b 11).xMax
      (tileRangeAt b 11).yMin (tileRangeAt b 11).yMax net =
      Except.error "No tiles loaded" := by
    unfold fetchDEMMosaic
    rw [if_pos hz]
  unfold fetchDEM
  rw [hb]
  simp only [herr]
  rfl

/-- C8: whenever the elevation load fails (missing bounds, or zero tiles
succeeding — the only failure paths of `fetchDEM`), the previously
installed terrain state (stored heightmap texture, stored color texture,
installed terrain mesh) is left unchanged; the new heightmap and mesh are
installed only on the all-stages-succeeded path. -/
theorem fetchDEM_atomic_on_error (resample : ResampleFn) (exag : ℚ)
    (net : ℤ → ℤ → Option Img) (s : AppState)
    (h : s.bounds = none ∨ ∀ x y, net x y = none) :
    (fetchDEM resample exag net s).1.heightmapTexture = s.heightmapTexture ∧
    (fetchDEM resample exag net s).1.colorTexture = s.colorTexture ∧
    (fetchDEM resample exag net s).1.terrain = s.terrain := by
  rcases h with h | h
  · rw [fetchDEM_noBounds resample exag net s h]
    exact ⟨rfl, rfl, rfl⟩
  · cases hb : s.bounds with
    | none =>
      rw [fetchDEM_noBounds resample exag net s hb]
      exact ⟨rfl, rfl, rfl⟩
    | some b =>
      rw [fetchDEM_allFail resample exag net s b hb h]
      exact ⟨rfl, rfl, rfl⟩

/-- Witness for C8: a state with no bounds, and separately a state with
bounds but a network on which every tile fetch fails. -/
theorem fetchDEM_atomic_on_error_witness :
    (initState.bounds = none ∧
      (fetchDEM resample0 1 netAll initState).1.heightmapTexture =
        initState.heightmapTexture) ∧
    ((∀ x y : ℤ, netNone x y = none) ∧
      (fetchDEM resample0 1 netNone exState).1.terrain = exState.terrain) :=
  ⟨⟨rfl, (fetchDEM_atomic_on_error resample0 1 netAll initState (Or.inl rfl)).1⟩,
   ⟨fun _ _ => rfl,
    (fetchDEM_atomic_on_error resample0 1 netNone exState
      (Or.inr fun _ _ => rfl)).2.2⟩⟩

theorem drawImageAt_pix (c im : Img) (ox oy px py : ℤ) :
    (drawImageAt c im ox oy).pix px py =
      if ox ≤ px ∧ px < ox + im.w ∧ oy ≤ py ∧ py < oy + im.h then
        im.pix (px - ox) (py - oy)
      else c.pix px py := rfl

theorem foldl_pix_nocover (ts : List TileEntry) : ∀ (c : Img) (k : ℕ) (px py : ℤ),
    (∀ t ∈ ts, ∀ im ox oy, t = some (im, ox, oy) →
      ¬(ox ≤ px ∧ px < ox + im.w ∧ oy ≤ py ∧ py < oy + im.h)) →
    ((ts.foldl mosaicStep (c, k)).1).pix px py = c.pix px py := by
  induction ts with
  | nil =>
    intro c k px py _
    rw [List.foldl_nil]
  | cons t ts ih =>
    intro c k px py hall
    match t with
    | none =>
      rw [List.foldl_cons]
      exact ih c k px py fun t2 ht2 => hall t2 (List.mem_cons_of_mem _ ht2)
    | some (im, ox, oy) =>
      rw [List.foldl_cons]
      show ((ts.foldl mosaicStep (drawImageAt c im ox oy, k + 1)).1).pix px py = _
      rw [ih _ _ px py fun t2 ht2 => hall t2 (List.mem_cons_of_mem _ ht2)]
      rw [drawImageAt_pix]
      exact if_neg (hall _ (List.mem_cons_self _ _) im ox oy rfl)

theorem foldl_pix_keep (ts : List TileEntry) : ∀ (c : Img) (k : ℕ) (px py : ℤ)
    (V : RGBA), c.pix px py = V →
    (∀ t ∈ ts, ∀ im ox oy, t = some (im, ox, oy) →
      (ox ≤ px ∧ px < ox + im.w ∧ oy ≤ py ∧ py < oy + im.h) →
      im.pix (px - ox) (py - oy) = V) →
    ((ts.foldl mosaicStep (c, k)).1).pix px py = V := by
  induction ts with
  | nil =>
    intro c k px py V hc _
    rw [List.foldl_nil]
    exact hc
  | cons t ts ih =>
    intro c k px py V hc hall
    match t with
    | none =>
      rw [List.foldl_cons]
      exact ih c k px py V hc fun t2 ht2 => hall t2 (List.mem_cons_of_mem _ ht2)
    | some (im, ox, oy) =>
      rw [List.foldl_cons]
      show ((ts.foldl mosaicStep (drawImageAt c im ox oy, k + 1)).1).pix px py = _
      refine ih _ _ px py V ?_ fun t2 ht2 => hall t2 (List.mem_cons_of_mem _ ht2)
      rw [drawImageAt_pix]
      by_cases hcov : ox ≤ px ∧ px < ox + im.w ∧ oy ≤ py ∧ py < oy + im.h
      · rw [if_pos hcov]
        exact hall _ (List.mem_cons_self _ _) im ox oy rfl hcov
      · rw [if_neg hcov]
        exact hc

theorem foldl_pix_cover (ts : List TileEntry) : ∀ (c : Img) (k : ℕ) (px py : ℤ)
    (V : RGBA),
    (∀ t ∈ ts, ∀ im ox oy, t = some (im, ox, oy) →
      (ox ≤ px ∧ px < ox + im.w ∧ oy ≤ py ∧ py < oy + im.h) →
      im.pix (px - ox) (py - oy) = V) →
    (∃ t ∈ ts, ∃ im ox oy, t = some (im, ox, oy) ∧
      (ox ≤ px ∧ px < ox + im.w ∧ oy ≤ py ∧ py < oy + im.h)) →
    ((ts.foldl mosaicStep (c, k)).1).pix px py = V := by
  induction ts with
  | nil =>
    intro c k px py V _ hex
    rcases hex with ⟨t, ht, _⟩
    exact absurd ht (List.not_mem_nil t)
  | cons t ts ih =>
    intro c k px py V hall hex
    by_cases hhead : ∃ im ox oy, t = some (im, ox, oy) ∧
        (ox ≤ px ∧ px < ox + im.w ∧ oy ≤ py ∧ py < oy + im.h)
    · rcases hhead with ⟨im, ox, oy, rfl, hcov⟩
      rw [List.foldl_cons]
      show ((ts.foldl mosaicStep (drawImageAt c im ox oy, k + 1)).1).pix px py = _
      refine foldl_pix_keep ts _ _ px py V ?_
        fun t2 ht2 => hall t2 (List.mem_cons_of_mem _ ht2)
      rw [drawImageAt_pix, if_pos hcov]
      exact hall _ (List.mem_cons_self _ _) im ox oy rfl hcov
    · rcases hex with ⟨t2, ht2, im2, ox2, oy2, heq2, hcov2⟩
      rcases List.mem_cons.mp ht2 with rfl | htail
      · exact absurd ⟨im2, ox2, oy2, heq2, hcov2⟩ hhead
      · match t with
        | none =>
          rw [List.foldl_cons]
          exact ih c k px py V (fun t3 ht3 => hall t3 (List.mem_cons_of_mem _ ht3))
            ⟨t2, htail, im2, ox2, oy2, heq2, hcov2⟩
        | some (im, ox, oy) =>
          rw [List.foldl_cons]
          show ((ts.foldl mosaicStep (drawImageAt c im ox oy, k + 1)).1).pix px py = _
          refine ih _ _ px py V (fun t3 ht3 => hall t3 (List.mem_cons_of_mem _ ht3))
            ⟨t2, htail, im2, ox2, oy2, heq2, hcov2⟩

/-- C2: the mosaic fetch raises its no-data error iff zero of the per-tile
fetches succeed; with at least one success it completes normally, with
every successful tile blitted at its offset and every failed tile's region
left blank; per-tile failures never propagate (they enter the composite as
`none` entries). -/
theorem mosaic_partial_failure (xMin xMax yMin yMax : ℤ)
    (net : ℤ → ℤ → Option Img)
    (hdim : ∀ x y im, net x y = some im → im.w = 256 ∧ im.h = 256) :
    ((∃ msg, fetchDEMMosaic xMin xMax yMin yMax net = Except.error msg) ↔
      ∀ x y, xMin ≤ x → x ≤ xMax → yMin ≤ y → y ≤ yMax → net x y = none) ∧
    ((∃ x y, xMin ≤ x ∧ x ≤ xMax ∧ yMin ≤ y ∧ y ≤ yMax ∧ (net x y).isSome) →
      fetchDEMMosaic xMin xMax yMin yMax net =
        Except.ok (mosaicBuild xMin xMax yMin yMax net)) ∧
    (∀ x y, xMin ≤ x → x ≤ xMax → yMin ≤ y → y ≤ yMax →
      ∀ p q : ℤ, 0 ≤ p → p < 256 → 0 ≤ q → q < 256 →
        (mosaicBuild xMin xMax yMin yMax net).1.pix
            ((x - xMin) * 256 + p) ((y - yMin) * 256 + q) =
          (match net x y with
            | some im => im.pix p q
            | none => blankRGBA)) := by
  refine ⟨⟨?_, ?_⟩, ?_, ?_⟩
  · rintro ⟨msg, hmsg⟩
    by_cases hz : (mosaicBuild xMin xMax yMin yMax net).2 = 0
    · exact mosaicBuild_count_zero.mp hz
    · exfalso
      unfold fetchDEMMosaic at hmsg
      rw [if_neg hz] at hmsg
      exact Except.noConfusion hmsg
  · intro hall
    have hz : (mosaicBuild xMin xMax yMin yMax net).2 = 0 :=
      mosaicBuild_count_zero.mpr hall
    unfold fetchDEMMosaic
    rw [if_pos hz]
    exact ⟨"No tiles loaded", rfl⟩
  · rintro ⟨x, y, hx1, hx2, hy1, hy2, hsome⟩
    have hz : ¬(mosaicBuild xMin xMax yMin yMax net).2 = 0 := by
      intro hz
      rw [mosaicBuild_count_zero.mp hz x y hx1 hx2 hy1 hy2] at hsome
      exact Bool.noConfusion hsome
    unfold fetchDEMMosaic
    rw [if_neg hz]
  · intro x y hx1 hx2 hy1 hy2 p q hp0 hp1 hq0 hq1
    cases hnet : net x y with
    | some im =>
      have hw : ((im.w : ℕ) : ℤ) = 256 := by
        rw [(hdim x y im hnet).1]
        rfl
      have hh : ((im.h : ℕ) : ℤ) = 256 := by
        rw [(hdim x y im hnet).2]
        rfl
      unfold mosaicBuild
      rw [foldl_pix_cover _ _ _ _ _ (im.pix p q) ?hall ?hex]
      case hall =>
        intro t ht im2 ox2 oy2 heq hcov
        rcases mem_demTileEntries.mp ht with ⟨x2, y2, hx21, hx22, hy21, hy22, rfl⟩
        rcases Option.map_eq_some'.mp heq with ⟨im0, hnet2, hf⟩
        cases hf
        have hw2 : ((im2.w : ℕ) : ℤ) = 256 := by
          rw [(hdim x2 y2 im2 hnet2).1]
          rfl
        have hh2 : ((im2.h : ℕ) : ℤ) = 256 := by
          rw [(hdim x2 y2 im2 hnet2).2]
          rfl
        rw [hw2, hh2] at hcov
        have hxy : x2 = x ∧ y2 = y := by
          constructor <;> nlinarith [hcov.1, hcov.2.1, hcov.2.2.1, hcov.2.2.2]
        rcases hxy with ⟨rfl, rfl⟩
        rw [hnet] at hnet2
        cases hnet2
        have hp2 : (x2 - xMin) * 256 + p - (x2 - xMin) * 256 = p := by ring
        have hq2 : (y2 - yMin) * 256 + q - (y2 - yMin) * 256 = q := by ring
        rw [hp2, hq2]
      case hex =>
        refine ⟨(net x y).map
            (fun im2 => (im2, (x - xMin) * 256, (y - yMin) * 256)),
          mem_demTileEntries.mpr ⟨x, y, hx1, hx2, hy1, hy2, rfl⟩,
          im, (x - xMin) * 256, (y - yMin) * 256, ?_, ?_⟩
        · rw [hnet]
          rfl
        · rw [hw, hh]
          omega
    | none =>
      unfold mosaicBuild
      rw [foldl_pix_nocover]
      · rfl
      · intro t ht im2 ox2 oy2 heq
        rcases mem_demTileEntries.mp ht with ⟨x2, y2, hx21, hx22, hy21, hy22, rfl⟩
        rcases Option.map_eq_some'.mp heq with ⟨im0, hnet2, hf⟩
        cases hf
        have hw2 : ((im2.w : ℕ) : ℤ) = 256 := by
          rw [(hdim x2 y2 im2 hnet2).1]
          rfl
        have hh2 : ((im2.h : ℕ) : ℤ) = 256 := by
          rw [(hdim x2 y2 im2 hnet2).2]
          rfl
        rw [hw2, hh2]
        intro hcov
        have hxy : x2 = x ∧ y2 = y := by
          constructor <;> nlinarith [hcov.1, hcov.2.1, hcov.2.2.1, hcov.2.2.2]
        rcases hxy with ⟨rfl, rfl⟩
        rw [hnet] at hnet2
        exact Option.noConfusion hnet2

/-- Witness for C2 on a concrete 2 × 2 grid with exactly one successful
tile. -/
theorem mosaic_partial_failure_witness :
    (∀ x y im, (fun (x2 y2 : ℤ) =>
        if x2 = 0 ∧ y2 = 0 then some tile256 else none) x y = some im →
      im.w = 256 ∧ im.h = 256) ∧
    ((∃ msg, fetchDEMMosaic 0 1 0 1 (fun (x2 y2 : ℤ) =>
        if x2 = 0 ∧ y2 = 0 then some tile256 else none) = Except.error msg) ↔
      ∀ x y, (0:ℤ) ≤ x → x ≤ 1 → (0:ℤ) ≤ y → y ≤ 1 →
        (fun (x2 y2 : ℤ) =>
          if x2 = 0 ∧ y2 = 0 then some tile256 else none) x y = none) := by
  have hdim : ∀ x y im, (fun (x2 y2 : ℤ) =>
      if x2 = 0 ∧ y2 = 0 then some tile256 else none) x y = some im →
      im.w = 256 ∧ im.h = 256 := by
    intro x y im h
    simp only at h
    by_cases hc : x = 0 ∧ y = 0
    · rw [if_pos hc] at h
      cases h
      exact ⟨rfl, rfl⟩
    · rw [if_neg hc] at h
      exact Option.noConfusion h
  exact ⟨hdim, (mosaic_partial_failure 0 1 0 1 _ hdim).1⟩

theorem foldl_statsStep_some (l : List ℚ) : ∀ (mn mx : ℚ), 0 < mn → 0 < mx →
    mn ≤ mx →
    ∃ mn2 mx2, l.foldl statsStep (some mn, some mx) = (some mn2, some mx2) ∧
      (mn2 = mn ∨ mn2 ∈ l) ∧ (mx2 = mx ∨ mx2 ∈ l) ∧ 0 < mn2 ∧ 0 < mx2 ∧
      mn2 ≤ mn ∧ mx ≤ mx2 ∧ mn2 ≤ mx2 ∧ ∀ e ∈ l, 0 < e → mn2 ≤ e ∧ e ≤ mx2 := by
  induction l with
  | nil =>
    intro mn mx h1 h2 h3
    exact ⟨mn, mx, rfl, Or.inl rfl, Or.inl rfl, h1, h2, le_refl _, le_refl _, h3,
      by simp⟩
  | cons a l ih =>
    intro mn mx h1 h2 h3
    rw [List.foldl_cons]
    by_cases ha : 0 < a
    · have hstep : statsStep (some mn, some mx) a = (some (min mn a), some (max mx a)) := by
        unfold statsStep
        rw [if_pos ha]
      rw [hstep]
      rcases ih (min mn a) (max mx a) (lt_min h1 ha)
          (lt_of_lt_of_le h2 (le_max_left _ _))
          (le_trans (min_le_left _ _) (le_trans h3 (le_max_left _ _))) with
        ⟨mn2, mx2, heq, hmem1, hmem2, hp1, hp2, hle1, hle2, hle3, hall⟩
      refine ⟨mn2, mx2, heq, ?_, ?_, hp1, hp2,
        le_trans hle1 (min_le_left _ _), le_trans (le_max_left _ _) hle2, hle3, ?_⟩
      · rcases hmem1 with h | h
        · rcases min_choice mn a with hc | hc
          · rw [hc] at h
            exact Or.inl h
          · rw [hc] at h
            exact Or.inr (h ▸ List.mem_cons_self a l)
        · exact Or.inr (List.mem_cons_of_mem _ h)
      · rcases hmem2 with h | h
        · rcases max_choice mx a with hc | hc
          · rw [hc] at h
            exact Or.inl h
          · rw [hc] at h
            exact Or.inr (h ▸ List.mem_cons_self a l)
        · exact Or.inr (List.mem_cons_of_mem _ h)
      · intro e hmem hpe
        rcases List.mem_cons.mp hmem with rfl | hmem2
        · exact ⟨le_trans hle1 (min_le_right _ _),
            le_trans (le_max_right _ _) hle2⟩
        · exact hall e hmem2 hpe
    · have hstep : statsStep (some mn, some mx) a = (some mn, some mx) := by
        unfold statsStep
        rw [if_neg ha]
      rw [hstep]
      rcases ih mn mx h1 h2 h3 with
        ⟨mn2, mx2, heq, hmem1, hmem2, hp1, hp2, hle1, hle2, hle3, hall⟩
      refine ⟨mn2, mx2, heq, ?_, ?_, hp1, hp2, hle1, hle2, hle3, ?_⟩
      · rcases hmem1 with h | h
        · exact Or.inl h
        · exact Or.inr (List.mem_cons_of_mem _ h)
      · rcases hmem2 with h | h
        · exact Or.inl h
        · exact Or.inr (List.mem_cons_of_mem _ h)
      · intro e hmem hpe
        rcases List.mem_cons.mp hmem with rfl | hmem2
        · exact absurd hpe ha
        · exact hall e hmem2 hpe

theorem elevStats_spec (l : List ℚ) :
    (elevStats l = (none, none) ∧ ∀ e ∈ l, ¬0 < e) ∨
    (∃ mn mx, elevStats l = (some mn, some mx) ∧ mn ∈ l ∧ mx ∈ l ∧ 0 < mn ∧
      0 < mx ∧ mn ≤ mx ∧ ∀ e ∈ l, 0 < e → mn ≤ e ∧ e ≤ mx) := by
  induction l with
  | nil =>
    left
    exact ⟨rfl, by simp⟩
  | cons a l ih =>
    by_cases ha : 0 < a
    · right
      have hstep : statsStep (none, none) a = (some a, some a) := by
        unfold statsStep
        rw [if_pos ha]
      rcases foldl_statsStep_some l a a ha ha (le_refl a) with
        ⟨mn2, mx2, heq, hmem1, hmem2, hp1, hp2, hle1, hle2, hle3, hall⟩
      refine ⟨mn2, mx2, ?_, ?_, ?_, hp1, hp2, hle3, ?_⟩
      · show List.foldl statsStep (none, none) (a :: l) = (some mn2, some mx2)
        rw [List.foldl_cons, hstep]
        exact heq
      · rcases hmem1 with h | h
        · exact h ▸ List.mem_cons_self a l
        · exact List.mem_cons_of_mem _ h
      · rcases hmem2 with h | h
        · exact h ▸ List.mem_cons_self a l
        · exact List.mem_cons_of_mem _ h
      · intro e hmem hpe
        rcases List.mem_cons.mp hmem with rfl | hmem2
        · exact ⟨hle1, hle2⟩
        · exact hall e hmem2 hpe
    · have hstep : statsStep (none, none) a = (none, none) := by
        unfold statsStep
        rw [if_neg ha]
      rcases ih with ⟨heq, hall⟩ | ⟨mn, mx, heq, hmnl, hmxl, hp1, hp2, hle, hall⟩
      · left
        constructor
        · show List.foldl statsStep (none, none) (a :: l) = (none, none)
          rw [List.foldl_cons, hstep]
          exact heq
        · intro e hmem
          rcases List.mem_cons.mp hmem with rfl | hmem2
          · exact ha
          · exact hall e hmem2
      · right
        refine ⟨mn, mx, ?_, List.mem_cons_of_mem _ hmnl,
          List.mem_cons_of_mem _ hmxl, hp1, hp2, hle, ?_⟩
        · show List.foldl statsStep (none, none) (a :: l) = (some mn, some mx)
          rw [List.foldl_cons, hstep]
          exact heq
        · intro e hmem hpe
          rcases List.mem_cons.mp hmem with rfl | hmem2
          · exact absurd hpe ha
          · exact hall e hmem2 hpe

theorem clampByte_zero : clampByte 0 = 0 := by
  unfold clampByte
  rw [if_pos (le_refl (0:ℚ))]

theorem clampByte_255 : clampByte 255 = 255 := by
  unfold clampByte
  rw [if_neg (by norm_num), if_pos (le_refl (255:ℚ))]

theorem clampByte_le (q : ℚ) : clampByte q ≤ 255 := by
  unfold clampByte
  split_ifs with h1 h2 h3 h4 h5
  · omega
  · omega
  · have hf : ⌊q⌋ < 255 := by
      rw [Int.floor_lt]
      push_cast
      linarith [not_le.mp h2]
    omega
  · have hf : ⌊q⌋ < 255 := by
      rw [Int.floor_lt]
      push_cast
      linarith [not_le.mp h2]
    omega
  · have hf : ⌊q⌋ < 255 := by
      rw [Int.floor_lt]
      push_cast
      linarith [not_le.mp h2]
    omega
  · have hf : ⌊q⌋ < 255 := by
      rw [Int.floor_lt]
      push_cast
      linarith [not_le.mp h2]
    omega

/-- C3: min/max are accumulated over exactly the samples strictly greater
than 0; with valid data and min < max every valid sample normalizes to
((value - min) / (max - min)) * 255, which lies in [0, 255], with the
minimum sample mapping to 0 (byte 0) and the maximum to 255 (byte 255);
every invalid sample, and every sample when max == min or when no valid
sample exists, is written as 0, with no division by zero. -/
theorem heightmap_normalization (l : List ℚ) (e : ℚ) (he : e ∈ l) :
    (0 ≤ hmValue e (elevStats l) ∧ hmValue e (elevStats l) ≤ 255) ∧
    (∀ mn mx, elevStats l = (some mn, some mx) →
      (0 < e → mn < mx →
        hmValue e (elevStats l) = (e - mn) / (mx - mn) * 255) ∧
      hmValue mn (elevStats l) = 0 ∧
      clampByte (hmValue mn (elevStats l)) = 0 ∧
      (mn < mx → hmValue mx (elevStats l) = 255 ∧
        clampByte (hmValue mx (elevStats l)) = 255) ∧
      (¬mn < mx → hmValue e (elevStats l) = 0)) ∧
    (¬0 < e → hmValue e (elevStats l) = 0) ∧
    ((elevStats l).1 = none → hmValue e (elevStats l) = 0) ∧
    clampByte (hmValue e (elevStats l)) ≤ 255 := by
  rcases elevStats_spec l with ⟨heq, hall⟩ |
    ⟨mn, mx, heq, hmnl, hmxl, hp1, hp2, hle, hall⟩
  · rw [heq]
    refine ⟨⟨le_refl 0, by rw [show hmValue e (none, none) = 0 from rfl]; norm_num⟩,
      ?_, fun _ => rfl, fun _ => rfl, ?_⟩
    · intro mn mx habs
      exact absurd (congrArg Prod.fst habs) (by simp)
    · rw [show hmValue e (none, none) = 0 from rfl, clampByte_zero]
      omega
  · rw [heq]
    have hval : ∀ v : ℚ, hmValue v (some mn, some mx) =
        if 0 < v ∧ mn < mx then (v - mn) / (mx - mn) * 255 else 0 := fun v => rfl
    refine ⟨?_, ?_, ?_, ?_, ?_⟩
    · rw [hval]
      split_ifs with hc
      · rcases hall e he hc.1 with ⟨hemn, hemx⟩
        have hd : 0 < mx - mn := by linarith [hc.2]
        constructor
        · have h0 : 0 ≤ (e - mn) / (mx - mn) := div_nonneg (by linarith) (le_of_lt hd)
          linarith
        · have hr : (e - mn) / (mx - mn) ≤ 1 := by
            rw [div_le_one hd]
            linarith
          nlinarith
      · exact ⟨le_refl 0, by norm_num⟩
    · intro mn2 mx2 heq2
      injection heq2 with h1 h2
      injection h1 with h1
      injection h2 with h2
      subst h1
      subst h2
      refine ⟨?_, ?_, ?_, ?_, ?_⟩
      · intro hpe hlt
        rw [hval]
        rw [if_pos ⟨hpe, hlt⟩]
      · rw [hval]
        split_ifs with hc
        · rw [sub_self, zero_div, zero_mul]
        · rfl
      · rw [hval]
        split_ifs with hc
        · rw [sub_self, zero_div, zero_mul, clampByte_zero]
        · exact clampByte_zero
      · intro hlt
        have hd : mx - mn ≠ 0 := by linarith
        rw [hval, if_pos ⟨lt_of_lt_of_le hp1 hle, hlt⟩, div_self hd, one_mul]
        exact ⟨rfl, clampByte_255⟩
      · intro hnlt
        rw [hval]
        split_ifs with hc
        · exact absurd hc.2 hnlt
        · rfl
    · intro hne
      rw [hval]
      split_ifs with hc
      · exact absurd hc.1 hne
      · rfl
    · intro habs
      exact absurd habs (by simp)
    · exact clampByte_le _

/-- Witness for C3 on a concrete raster with two valid samples. -/
theorem heightmap_normalization_witness :
    (1:ℚ) ∈ [(1:ℚ), 3, -2] ∧
    0 ≤ hmValue 1 (elevStats [(1:ℚ), 3, -2]) ∧
    hmValue 1 (elevStats [(1:ℚ), 3, -2]) ≤ 255 :=
  ⟨by simp, (heightmap_normalization [(1:ℚ), 3, -2] 1 (by simp)).1.1,
    (heightmap_normalization [(1:ℚ), 3, -2] 1 (by simp)).1.2⟩

/-- Claim C5 auxiliary: the 0.5 * (exp n - exp (-n)) of `tileToLatLon` is
the hyperbolic sine. -/
theorem sinh_eq_half (n : ℝ) : 0.5 * (Real.exp n - Real.exp (-n)) = Real.sinh n := by
  rw [Real.sinh_eq]
  ring

theorem invLat_eq (y : ℝ) (z : ℕ) :
    invLat y z = 180 / Real.pi *
      Real.arctan (Real.sinh (Real.pi - 2 * Real.pi * y / 2 ^ z)) := by
  unfold invLat
  rw [sinh_eq_half]

theorem invLat_strictAnti (z : ℕ) {y1 y2 : ℝ} (h : y1 < y2) :
    invLat y2 z < invLat y1 z := by
  rw [invLat_eq, invLat_eq]
  have hpi : 0 < Real.pi := Real.pi_pos
  have h2z : (0:ℝ) < 2 ^ z := by positivity
  apply mul_lt_mul_of_pos_left _ (by positivity : (0:ℝ) < 180 / Real.pi)
  apply Real.arctan_strictMono
  rw [Real.sinh_lt_sinh]
  have hd : 2 * Real.pi * y1 / 2 ^ z < 2 * Real.pi * y2 / 2 ^ z := by
    gcongr
  linarith

theorem invLat_merc (lat : ℝ) (z : ℕ) (h1 : -90 < lat) (h2 : lat < 90) :
    invLat ((1 - Real.log (Real.tan (lat * Real.pi / 180) +
      1 / Real.cos (lat * Real.pi / 180)) / Real.pi) / 2 * 2 ^ z) z = lat := by
  have hpi : 0 < Real.pi := Real.pi_pos
  set φ := lat * Real.pi / 180 with hphi
  have hφ1 : -(Real.pi / 2) < φ := by
    rw [hphi]
    have hm := mul_lt_mul_of_pos_right h1 (show (0:ℝ) < Real.pi / 180 by positivity)
    calc -(Real.pi / 2) = -90 * (Real.pi / 180) := by ring
      _ < lat * (Real.pi / 180) := hm
      _ = lat * Real.pi / 180 := by ring
  have hφ2 : φ < Real.pi / 2 := by
    rw [hphi]
    have hm := mul_lt_mul_of_pos_right h2 (show (0:ℝ) < Real.pi / 180 by positivity)
    calc lat * Real.pi / 180 = lat * (Real.pi / 180) := by ring
      _ < 90 * (Real.pi / 180) := hm
      _ = Real.pi / 2 := by ring
  have hcos : 0 < Real.cos φ := Real.cos_pos_of_mem_Ioo ⟨hφ1, hφ2⟩
  have hsin : -1 < Real.sin φ := by
    nlinarith [Real.sin_sq_add_cos_sq φ, Real.sin_le_one φ, mul_pos hcos hcos]
  have hsum : Real.tan φ + 1 / Real.cos φ = (Real.sin φ + 1) / Real.cos φ := by
    rw [Real.tan_eq_sin_div_cos, div_add_div_same]
  have ht : 0 < Real.tan φ + 1 / Real.cos φ := by
    rw [hsum]
    exact div_pos (by linarith) hcos
  have hkey : Real.sinh (Real.log (Real.tan φ + 1 / Real.cos φ)) = Real.tan φ := by
    rw [Real.sinh_log ht, hsum, Real.tan_eq_sin_div_cos]
    rw [inv_div]
    have hc : Real.cos φ ≠ 0 := ne_of_gt hcos
    have hs : Real.sin φ + 1 ≠ 0 := by linarith
    field_simp
    linear_combination (-Real.cos φ) * Real.sin_sq_add_cos_sq φ
  have hn : Real.pi - 2 * Real.pi *
      ((1 - Real.log (Real.tan φ + 1 / Real.cos φ) / Real.pi) / 2 * 2 ^ z) / 2 ^ z =
      Real.log (Real.tan φ + 1 / Real.cos φ) := by
    have h2z : ((2:ℝ) ^ z) ≠ 0 := by positivity
    field_simp
    ring
  rw [invLat_eq, hn, hkey, Real.arctan_tan hφ1 hφ2, hphi]
  field_simp
  ring

/-- C5: for lat in (-85.06, 85.06), lon in [-180, 180) and any zoom,
`tileToLatLon(latLonToTile(lat, lon, zoom), zoom)` is the north-west corner
of the tile containing (lat, lon):
nwLon <= lon < nwLon + 360 / 2^zoom and
tileToLatLon(x, y + 1, zoom).lat < lat <= nwLat. -/
theorem latLonToTile_roundtrip (lat lon : ℝ) (z : ℕ)
    (hlat1 : -85.06 < lat) (hlat2 : lat < 85.06)
    (hlon1 : -180 ≤ lon) (hlon2 : lon < 180) :
    (tileToLatLon ((latLonToTile lat lon z).1 : ℝ)
      ((latLonToTile lat lon z).2 : ℝ) z).2 ≤ lon ∧
    lon < (tileToLatLon ((latLonToTile lat lon z).1 : ℝ)
      ((latLonToTile lat lon z).2 : ℝ) z).2 + 360 / 2 ^ z ∧
    (tileToLatLon ((latLonToTile lat lon z).1 : ℝ)
      (((latLonToTile lat lon z).2 + 1 : ℤ) : ℝ) z).1 < lat ∧
    lat ≤ (tileToLatLon ((latLonToTile lat lon z).1 : ℝ)
      ((latLonToTile lat lon z).2 : ℝ) z).1 := by
  have h2z : (0:ℝ) < 2 ^ z := by positivity
  have hxfl : ((⌊(lon + 180) / 360 * 2 ^ z⌋ : ℤ) : ℝ) ≤ (lon + 180) / 360 * 2 ^ z :=
    Int.floor_le _
  have hxfl2 : (lon + 180) / 360 * 2 ^ z < (⌊(lon + 180) / 360 * 2 ^ z⌋ : ℤ) + 1 :=
    Int.lt_floor_add_one _
  have hu : (lon + 180) / 360 * 2 ^ z * 360 / 2 ^ z = lon + 180 := by
    field_simp
  refine ⟨?_, ?_, ?_, ?_⟩
  · show ((⌊(lon + 180) / 360 * 2 ^ z⌋ : ℤ) : ℝ) / 2 ^ z * 360 - 180 ≤ lon
    have hm : ((⌊(lon + 180) / 360 * 2 ^ z⌋ : ℤ) : ℝ) * 360 / 2 ^ z ≤
        (lon + 180) / 360 * 2 ^ z * 360 / 2 ^ z := by
      gcongr
    rw [hu] at hm
    have heq : ((⌊(lon + 180) / 360 * 2 ^ z⌋ : ℤ) : ℝ) / 2 ^ z * 360 =
        ((⌊(lon + 180) / 360 * 2 ^ z⌋ : ℤ) : ℝ) * 360 / 2 ^ z := by ring
    linarith [heq ▸ hm]
  · show lon < ((⌊(lon + 180) / 360 * 2 ^ z⌋ : ℤ) : ℝ) / 2 ^ z * 360 - 180 + 360 / 2 ^ z
    have hm : (lon + 180) / 360 * 2 ^ z * 360 / 2 ^ z <
        (((⌊(lon + 180) / 360 * 2 ^ z⌋ : ℤ) : ℝ) + 1) * 360 / 2 ^ z := by
      gcongr
    rw [hu] at hm
    have heq : (((⌊(lon + 180) / 360 * 2 ^ z⌋ : ℤ) : ℝ) + 1) * 360 / 2 ^ z =
        ((⌊(lon + 180) / 360 * 2 ^ z⌋ : ℤ) : ℝ) / 2 ^ z * 360 + 360 / 2 ^ z := by
      ring
    rw [heq] at hm
    linarith
  · have hmerc := invLat_merc lat z (by linarith) (by linarith)
    have hfl : (1 - Real.log (Real.tan (lat * Real.pi / 180) +
        1 / Real.cos (lat * Real.pi / 180)) / Real.pi) / 2 * 2 ^ z <
        ((⌊(1 - Real.log (Real.tan (lat * Real.pi / 180) +
          1 / Real.cos (lat * Real.pi / 180)) / Real.pi) / 2 * 2 ^ z⌋ : ℤ) : ℝ) + 1 :=
      Int.lt_floor_add_one _
    show invLat (((latLonToTile lat lon z).2 + 1 : ℤ) : ℝ) z < lat
    rw [show (((latLonToTile lat lon z).2 + 1 : ℤ) : ℝ) =
      ((latLonToTile lat lon z).2 : ℝ) + 1 by push_cast; ring]
    calc invLat (((latLonToTile lat lon z).2 : ℝ) + 1) z
        < invLat ((1 - Real.log (Real.tan (lat * Real.pi / 180) +
            1 / Real.cos (lat * Real.pi / 180)) / Real.pi) / 2 * 2 ^ z) z :=
          invLat_strictAnti z hfl
      _ = lat := hmerc
  · have hmerc := invLat_merc lat z (by linarith) (by linarith)
    have hfl : ((⌊(1 - Real.log (Real.tan (lat * Real.pi / 180) +
        1 / Real.cos (lat * Real.pi / 180)) / Real.pi) / 2 * 2 ^ z⌋ : ℤ) : ℝ) ≤
        (1 - Real.log (Real.tan (lat * Real.pi / 180) +
          1 / Real.cos (lat * Real.pi / 180)) / Real.pi) / 2 * 2 ^ z :=
      Int.floor_le _
    have hstep : invLat ((1 - Real.log (Real.tan (lat * Real.pi / 180) +
        1 / Real.cos (lat * Real.pi / 180)) / Real.pi) / 2 * 2 ^ z) z ≤
        invLat ((⌊(1 - Real.log (Real.tan (lat * Real.pi / 180) +
          1 / Real.cos (lat * Real.pi / 180)) / Real.pi) / 2 * 2 ^ z⌋ : ℤ) : ℝ) z := by
      rcases eq_or_lt_of_le hfl with heq | hlt
      · rw [heq]
      · exact le_of_lt (invLat_strictAnti z hlt)
    show lat ≤ invLat ((latLonToTile lat lon z).2 : ℝ) z
    calc lat = invLat ((1 - Real.log (Real.tan (lat * Real.pi / 180) +
          1 / Real.cos (lat * Real.pi / 180)) / Real.pi) / 2 * 2 ^ z) z := hmerc.symm
      _ ≤ _ := hstep


/-- Witness for C5 at lat = 0, lon = 0, zoom = 0. -/
theorem latLonToTile_roundtrip_witness :
    (-85.06 : ℝ) < 0 ∧ (0:ℝ) < 85.06 ∧ (-180:ℝ) ≤ 0 ∧ (0:ℝ) < 180 ∧
    (tileToLatLon ((latLonToTile 0 0 0).1 : ℝ)
      ((latLonToTile 0 0 0).2 : ℝ) 0).2 ≤ 0 :=
  ⟨by norm_num, by norm_num, by norm_num, by norm_num,
    (latLonToTile_roundtrip 0 0 0 (by norm_num) (by norm_num) (by norm_num)
      (by norm_num)).1⟩

/-- C10: the bounding box built by `loadLocationTerrain` has
north - south = east - west = 0.3 exactly, hence satisfies the
GeoBoundingBox invariant north > south, east > west; and for any
(nonempty) covering tile range the two crop-formula denominators
(source footprint extents) are nonzero (indeed positive). -/
theorem locationBounds_invariant (lat lon : ℚ) (z : ℕ)
    (xMin xMax yMin yMax : ℤ) (hx : xMin ≤ xMax) (hy : yMin ≤ yMax) :
    (locationBounds lat lon).north - (locationBounds lat lon).south = 3 / 10 ∧
    (locationBounds lat lon).east - (locationBounds lat lon).west = 3 / 10 ∧
    (locationBounds lat lon).south < (locationBounds lat lon).north ∧
    (locationBounds lat lon).west < (locationBounds lat lon).east ∧
    (tileToLatLon ((xMax + 1 : ℤ) : ℝ) ((yMax + 1 : ℤ) : ℝ) z).2 -
      (tileToLatLon (xMin : ℝ) (yMin : ℝ) z).2 > 0 ∧
    (tileToLatLon (xMin : ℝ) (yMin : ℝ) z).1 -
      (tileToLatLon ((xMax + 1 : ℤ) : ℝ) ((yMax + 1 : ℤ) : ℝ) z).1 > 0 := by
  have h2z : (0:ℝ) < 2 ^ z := by positivity
  refine ⟨?_, ?_, ?_, ?_, ?_, ?_⟩
  · show lat + 0.15 - (lat - 0.15) = 3 / 10
    norm_num
  · show lon + 0.15 - (lon - 0.15) = 3 / 10
    norm_num
  · show lat - 0.15 < lat + 0.15
    have : (0.15 : ℚ) > 0 := by norm_num
    linarith
  · show lon - 0.15 < lon + 0.15
    have : (0.15 : ℚ) > 0 := by norm_num
    linarith
  · show ((xMax + 1 : ℤ) : ℝ) / 2 ^ z * 360 - 180 -
      ((xMin : ℝ) / 2 ^ z * 360 - 180) > 0
    push_cast
    have heq : ((xMax : ℝ) + 1) / 2 ^ z * 360 - 180 -
        ((xMin : ℝ) / 2 ^ z * 360 - 180) =
        ((xMax : ℝ) + 1 - (xMin : ℝ)) * (360 / 2 ^ z) := by
      ring
    rw [heq]
    have hlt : (xMin : ℝ) < (xMax : ℝ) + 1 := by
      have : (xMin : ℝ) ≤ (xMax : ℝ) := by exact_mod_cast hx
      linarith
    exact mul_pos (by linarith) (by positivity)
  · show invLat ((yMin : ℤ) : ℝ) z - invLat ((yMax + 1 : ℤ) : ℝ) z > 0
    have hlt : ((yMin : ℤ) : ℝ) < ((yMax + 1 : ℤ) : ℝ) := by
      exact_mod_cast (by omega : yMin < yMax + 1)
    exact sub_pos.mpr (invLat_strictAnti z hlt)

/-- Witness for C10 at lat = lon = 0 and the 1 × 1 tile range at zoom 0. -/
theorem locationBounds_invariant_witness :
    (0:ℤ) ≤ 0 ∧
    (locationBounds 0 0).north - (locationBounds 0 0).south = 3 / 10 :=
  ⟨le_refl 0,
    (locationBounds_invariant 0 0 0 0 0 0 0 (le_refl 0) (le_refl 0)).1⟩

theorem fetchDEMMosaic_ok (xMin xMax yMin yMax : ℤ) (net : ℤ → ℤ → Option Img)
    (hx : xMin ≤ xMax) (hy : yMin ≤ yMax) (hnet : ∀ x y, (net x y).isSome) :
    fetchDEMMosaic xMin xMax yMin yMax net =
      Except.ok (mosaicBuild xMin xMax yMin yMax net) := by
  have hmem : ((net xMin yMin).map
      (fun im => (im, (xMin - xMin) * 256, (yMin - yMin) * 256)) : TileEntry) ∈
      demTileEntries xMin xMax yMin yMax net :=
    mem_demTileEntries.mpr ⟨xMin, yMin, le_refl _, hx, le_refl _, hy, rfl⟩
  have hz : ¬(mosaicBuild xMin xMax yMin yMax net).2 = 0 := by
    intro hz
    rw [mosaicBuild_count, List.countP_eq_zero] at hz
    have hns := hz _ hmem
    cases hval : net xMin yMin with
    | none =>
      have hsome := hnet xMin yMin
      rw [hval] at hsome
      exact Bool.noConfusion hsome
    | some im =>
      rw [hval] at hns
      exact hns rfl
  unfold fetchDEMMosaic
  rw [if_neg hz]

theorem fetchDEM_success_fields (resample : ResampleFn) (exag : ℚ)
    (net : ℤ → ℤ → Option Img) (s : AppState) (b : BBox)
    (hb : s.bounds = some b) (hnet : ∀ x y, (net x y).isSome) :
    fetchDEM resample exag net s =
      (let g := tileRangeAt b 11
       let m := (mosaicBuild g.xMin g.xMax g.yMin g.yMax net).1
       let st := elevStats (elevList m)
       let hm := demHeightmapImg resample b g m
       { s with
          heightmapTexture := some hm
          colorTexture := none
          terrain := some (mkTerrain (some hm) none exag)
          domLoading := false
          domStatus := ⟨"Loaded: " ++ fix0Min st.1 ++ "m - " ++ fix0Max st.2
            ++ "m elevation", "success"⟩
          domCoordAlt := "Alt: " ++ fix0Min st.1 ++ "-" ++ fix0Max st.2 ++ "m" },
       ()) := by
  have hok := fetchDEMMosaic_ok (tileRangeAt b 11).xMin (tileRangeAt b 11).xMax
    (tileRangeAt b 11).yMin (tileRangeAt b 11).yMax net
    (min_le_max) (min_le_max) hnet
  unfold fetchDEM
  rw [hb]
  simp only [hok]
  rfl

/-- Counterexample to C7: at a concrete bounding box, resampler and
fully-successful network, `fetchDEM` returns `()` (the JavaScript
`undefined`) rather than any result record, while the normalized heightmap
is delivered by mutating `state.heightmapTexture`. -/
theorem fetchDEM_no_return_record :
    (fetchDEM resample0 1 netAll exState).2 = () ∧
    (fetchDEM resample0 1 netAll exState).1.heightmapTexture ≠
      exState.heightmapTexture := by
  have hs := fetchDEM_success_fields resample0 1 netAll exState
    (locationBounds 28 87) rfl (fun _ _ => rfl)
  constructor
  · rfl
  · rw [hs]
    simp only
    intro habs
    exact Option.noConfusion habs

/-- C7 (amended): `fetchDEM` returns `undefined` (unit) on every path; on
success it delivers the normalized heightmap by storing it into
`state.heightmapTexture` (and rebuilding the terrain mesh from it), and it
reports the computed elevation minimum and maximum only through the DOM
status and coordinate-readout strings — not as a returned request/response
value, and not into `state.elevationMin` / `state.elevationMax`. -/
theorem fetchDEM_delivers_via_state (resample : ResampleFn) (exag : ℚ)
    (net : ℤ → ℤ → Option Img) (s : AppState) (b : BBox)
    (hb : s.bounds = some b) (hnet : ∀ x y, (net x y).isSome) :
    (fetchDEM resample exag net s).2 = () ∧
    (fetchDEM resample exag net s).1.heightmapTexture =
      some (demHeightmapImg resample b (tileRangeAt b 11)
        (mosaicBuild (tileRangeAt b 11).xMin (tileRangeAt b 11).xMax
          (tileRangeAt b 11).yMin (tileRangeAt b 11).yMax net).1) ∧
    (fetchDEM resample exag net s).1.colorTexture = none ∧
    (fetchDEM resample exag net s).1.terrain =
      some (mkTerrain (some (demHeightmapImg resample b (tileRangeAt b 11)
        (mosaicBuild (tileRangeAt b 11).xMin (tileRangeAt b 11).xMax
          (tileRangeAt b 11).yMin (tileRangeAt b 11).yMax net).1)) none exag) ∧
    (fetchDEM resample exag net s).1.domStatus.text =
      "Loaded: " ++ fix0Min (elevStats (elevList
        (mosaicBuild (tileRangeAt b 11).xMin (tileRangeAt b 11).xMax
          (tileRangeAt b 11).yMin (tileRangeAt b 11).yMax net).1)).1 ++
      "m - " ++ fix0Max (elevStats (elevList
        (mosaicBuild (tileRangeAt b 11).xMin (tileRangeAt b 11).xMax
          (tileRangeAt b 11).yMin (tileRangeAt b 11).yMax net).1)).2 ++
      "m elevation" ∧
    (fetchDEM resample exag net s).1.elevationMin = s.elevationMin ∧
    (fetchDEM resample exag net s).1.elevationMax = s.elevationMax := by
  rw [fetchDEM_success_fields resample exag net s b hb hnet]
  exact ⟨rfl, rfl, rfl, rfl, rfl, rfl, rfl⟩

/-- Witness for the amended C7 at concrete inputs. -/
theorem fetchDEM_delivers_via_state_witness :
    exState.bounds = some (locationBounds 28 87) ∧
    (∀ x y : ℤ, (netAll x y).isSome) ∧
    (fetchDEM resample0 1 netAll exState).2 = () :=
  ⟨rfl, fun _ _ => rfl,
    (fetchDEM_delivers_via_state resample0 1 netAll exState
      (locationBounds 28 87) rfl (fun _ _ => rfl)).1⟩
